import Mathlib

/-!
Verification of the privacyguard account-discovery subsystem.

Shallow embedding of the discovery orchestration layer:
* `src/privacyguard/src/discovery/DiscoveryEngine.js` — identifier/task
  scheduling, probe-result aggregation, confidence scoring, deduplication;
* the `DiscoveryService` job manager (start/cancel/timeout/history).

JavaScript numbers are modelled as `Int` where adapter-supplied values flow in
(probe confidence), and `Nat` for counters and clock values.  JavaScript
truthiness is modelled explicitly where the code relies on it
(`result.confidence || 50`, `account.email || account.username`).
-/

set_option autoImplicit false

namespace PrivacyGuard

/-- Identifier type: email, username or phone, as produced by
`prepareDiscoveryIdentifiers`. -/
inductive IdType where
  | email
  | username
  | phone
deriving DecidableEq, Repr

/-- String rendering of an `IdType`, as used in the template literal
`` `${identifier.type}:${identifier.source}` ``. -/
def IdType.str : IdType → String
  | .email => "email"
  | .username => "username"
  | .phone => "phone"

/-- An identifier record `{type, value, confidence, source}` as built by
`prepareDiscoveryIdentifiers` (DiscoveryEngine.js lines 135-211). -/
structure Identifier where
  type : IdType
  value : String
  confidence : Nat
  source : String
deriving DecidableEq, Repr

/-- The object returned by the adapter method `discoverAccount`:
`{exists, confidence?, method?, profileUrl?, isVerified?, ...}`.
`exists` may be `true`, `false` or `null` (modelled by `Option Bool`);
`confidence` and the metadata fields may be absent. -/
structure ProbeOutcome where
  existsFlag : Option Bool
  confidence : Option Int
  method : Option String
  profileUrl : Option String
  isVerified : Option Bool
  lastActivity : Option String
  accountAge : Option String
  followers : Option Int
  following : Option Int
deriving DecidableEq, Repr

/-- The `metadata` object built for a discovered account
(DiscoveryEngine.js lines 495-502). -/
structure AccountMetadata where
  profileUrl : Option String
  isVerified : Bool
  lastActivity : Option String
  accountAge : Option String
  followers : Option Int
  following : Option Int
deriving DecidableEq, Repr

/-- A discovered-account record as assembled in `analyzeDiscoveryResults`
(DiscoveryEngine.js lines 488-505).  `platformId`, `lastVerified` and
`status` carry no aggregation logic and are elided. -/
structure DiscoveredAccount where
  platform : String
  email : Option String
  username : Option String
  detectionMethod : String
  confidence : Int
  metadata : AccountMetadata
deriving DecidableEq, Repr

/-- Embedding of `calculateAccountConfidence` (DiscoveryEngine.js lines 551-588).
`result.confidence || 50` is JavaScript truthiness: an absent confidence
*and* a confidence of `0` both fall back to `50`. -/
def calculateAccountConfidence (result : ProbeOutcome) (identifier : Identifier) : Int :=
  let base : Int :=
    match result.confidence with
    | none => 50
    | some c => if c = 0 then 50 else c
  let srcBonus : Int :=
    if identifier.source = "primary_email" then 20
    else if identifier.source = "alternative_email" then 15
    else if identifier.source = "phone_number" then 10
    else if identifier.source = "common_username" then 5
    else 0
  let methodBonus : Int :=
    match result.method with
    | some m =>
      if m = "password_reset" then 15
      else if m = "api_verification" then 20
      else if m = "public_profile" then 10
      else if m = "email_enumeration" then 12
      else 0
    | none => 0
  min (base + srcBonus + methodBonus) 100

/-- The dedup key `` `${account.platform}:${account.email || account.username}` ``
(DiscoveryEngine.js line 600).  `||` falls through on `null` *and* on the
empty string; a `null` interpolates as the string `"null"`. -/
def canonicalKey (a : DiscoveredAccount) : String :=
  let renderUsername : String :=
    match a.username with
    | some u => u
    | none => "null"
  let idPart : String :=
    match a.email with
    | some s => if s = "" then renderUsername else s
    | none => renderUsername
  a.platform ++ ":" ++ idPart

/-- The replacement step of `deduplicateAccounts` (lines 607-613): find the
first retained account with the given key and replace it when the newcomer
has strictly higher confidence. -/
def replaceAtKey : List DiscoveredAccount → String → DiscoveredAccount → List DiscoveredAccount
  | [], _, _ => []
  | b :: rest, k, a =>
    if canonicalKey b = k then
      (if a.confidence > b.confidence then a else b) :: rest
    else
      b :: replaceAtKey rest k a

/-- One iteration of the `deduplicateAccounts` loop, carrying the retained
list and the `seen` key set. -/
def dedupStep (st : List DiscoveredAccount × List String) (a : DiscoveredAccount) :
    List DiscoveredAccount × List String :=
  let k := canonicalKey a
  if k ∈ st.2 then
    (replaceAtKey st.1 k a, st.2)
  else
    (st.1 ++ [a], k :: st.2)

/-- Embedding of `deduplicateAccounts` (DiscoveryEngine.js lines 595-618). -/
def deduplicateAccounts (accounts : List DiscoveredAccount) : List DiscoveredAccount :=
  (accounts.foldl dedupStep ([], [])).1

/-- A platform configuration object; scheduling only consults its `key`. -/
structure Platform where
  key : String
deriving DecidableEq, Repr

/-- Embedding of `platformSupportsIdentifierType` (DiscoveryEngine.js lines 749-756):
phone lookup is restricted to an allow-list, every platform supports email
and username. -/
def platformSupportsIdentifierType (platform : Platform) (identifierType : IdType) : Bool :=
  match identifierType with
  | .phone => platform.key ∈ ["twitter", "facebook", "whatsapp", "telegram"]
  | _ => true

/-- A discovery task `{platform: platform.key, identifier, options}`
(options carry no scheduling logic and are elided). -/
structure DiscoveryTask where
  platform : String
  identifier : Identifier
deriving DecidableEq, Repr

/-- The task-building double loop of `executeDiscoveryAcrossPlatforms`
(DiscoveryEngine.js lines 327-344): platforms outer, identifiers inner,
skipping unsupported identifier types. -/
def buildDiscoveryTasks (identifiers : List Identifier) (platforms : List Platform) :
    List DiscoveryTask :=
  platforms.flatMap fun p =>
    (identifiers.filter fun i => platformSupportsIdentifierType p i.type).map
      fun i => { platform := p.key, identifier := i }

/-- Embedding of `chunkArray` (DiscoveryEngine.js lines 774-780).  For a chunk size of 0 the
JavaScript loop never advances (divergence); that case is modelled as no
chunks and every theorem about chunking assumes a positive chunk size. -/
def chunkArray {α : Type} : List α → Nat → List (List α)
  | _, 0 => []
  | [], _ + 1 => []
  | a :: tl, n + 1 => ((a :: tl).take (n + 1)) :: chunkArray ((a :: tl).drop (n + 1)) (n + 1)
termination_by l _ => l.length
decreasing_by
  simp only [List.length_drop, List.length_cons]
  omega

/-- A task outcome record as returned by `executeDiscoveryTask`
(DiscoveryEngine.js lines 417-424 on success, 438-445 on failure). -/
structure Discovery where
  platform : String
  identifier : Identifier
  result : Option ProbeOutcome
  success : Bool
  error : Option String
deriving DecidableEq, Repr

/-- Embedding of `executeDiscoveryTask` (DiscoveryEngine.js lines 378-447).  The adapter
call wrapped in the timeout race and bounded retry either produces a probe
outcome or throws; the surrounding `try`/`catch` turns either case into a
record, so the function never rejects. -/
def executeDiscoveryTask (task : DiscoveryTask) (outcome : Except String ProbeOutcome) :
    Discovery :=
  match outcome with
  | .ok r =>
    { platform := task.platform, identifier := task.identifier,
      result := some r, success := true, error := none }
  | .error e =>
    { platform := task.platform, identifier := task.identifier,
      result := none, success := false, error := some e }

/-- The chunked execution loop of `executeDiscoveryAcrossPlatforms`
(DiscoveryEngine.js lines 346-371).  `Promise.allSettled` fulfils with every
task record (tasks never reject), and each chunk appends its records in
order, and the final `filter(r => r !== null)` removes nothing because
`executeDiscoveryTask` always returns an object.  The adapter behaviour is
abstracted as an oracle from tasks to outcomes. -/
def executeDiscoveryAcrossPlatforms (identifiers : List Identifier)
    (platforms : List Platform) (oracle : DiscoveryTask → Except String ProbeOutcome)
    (limit : Nat) : List Discovery :=
  ((chunkArray (buildDiscoveryTasks identifiers platforms) limit).map fun chunk =>
    chunk.map fun t => executeDiscoveryTask t (oracle t)).flatten

/-- Events of the chunked execution schedule: a task settling as part of
chunk `chunkIdx`, or the inter-chunk `sleep(delayBetweenRequests)`. -/
inductive SchedEvent where
  | settle (task : DiscoveryTask) (chunkIdx : Nat)
  | interChunkDelay (chunkIdx : Nat)
deriving DecidableEq, Repr

/-- Rank of a schedule event: all settlements of chunk `i` rank below the
chunk-`i` delay, which ranks below everything of chunk `i + 1`. -/
def SchedEvent.rank : SchedEvent → Nat
  | .settle _ i => 2 * i
  | .interChunkDelay i => 2 * i + 1

/-- The temporal order of suspension points produced by the chunk loop
(DiscoveryEngine.js lines 349-368): for each chunk, all of its tasks settle
(`await Promise.allSettled`), then — when
`taskChunks.indexOf(chunk) < taskChunks.length - 1` — the inter-chunk delay
elapses, before the next chunk is examined.  `indexOf` compares arrays by
object identity and every chunk is a fresh `slice`, so the condition is
exactly: the position of the chunk is not the last. -/
def traceFrom (allChunks : List (List DiscoveryTask)) :
    List (List DiscoveryTask) → Nat → List SchedEvent
  | [], _ => []
  | c :: rest, i =>
    (c.map fun t => SchedEvent.settle t i) ++
    (if i + 1 < allChunks.length then [SchedEvent.interChunkDelay i]
     else []) ++
    traceFrom allChunks rest (i + 1)

/-- The schedule trace of one `executeDiscoveryAcrossPlatforms` run. -/
def executionTrace (tasks : List DiscoveryTask) (limit : Nat) : List SchedEvent :=
  traceFrom (chunkArray tasks limit) (chunkArray tasks limit) 0

/-- Per-platform tallies `{searched, found, errors}`
(DiscoveryEngine.js lines 469-475). -/
structure PlatStats where
  searched : Nat
  found : Nat
  errors : Nat
deriving DecidableEq, Repr

/-- Per-identifier-source tallies `{searched, found}`
(DiscoveryEngine.js lines 512-517). -/
structure IdStats where
  searched : Nat
  found : Nat
deriving DecidableEq, Repr

/-- Pointwise update of a tally table.  The JavaScript objects create a
zeroed entry on first touch; the tables are modelled as total functions that
default to zero. -/
def updateTable {β : Type} (f : String → β) (k : String) (v : β) : String → β :=
  fun k2 => if k2 = k then v else f k2

/-- JavaScript truthiness of `result && result.exists`
(DiscoveryEngine.js lines 484 and 520): the record is non-null and `exists`
is `true` (not `false`, not `null`). -/
def resultExists (d : Discovery) : Bool :=
  match d.result with
  | some r => r.existsFlag = some true
  | none => false

/-- The account record assembled for a positive probe
(DiscoveryEngine.js lines 488-505).  the method defaults by truthiness:
truthiness: absent *and* empty-string methods become `"unknown"`. -/
def mkAccount (d : Discovery) (r : ProbeOutcome) : DiscoveredAccount :=
  { platform := d.platform,
    email := if d.identifier.type = .email then some d.identifier.value else none,
    username := if d.identifier.type = .username then some d.identifier.value else none,
    detectionMethod :=
      match r.method with
      | some m => if m = "" then "unknown" else m
      | none => "unknown",
    confidence := calculateAccountConfidence r d.identifier,
    metadata :=
      { profileUrl := r.profileUrl,
        isVerified := r.isVerified.getD false,
        lastActivity := r.lastActivity,
        accountAge := r.accountAge,
        followers := r.followers,
        following := r.following } }

/-- Accumulator of the `analyzeDiscoveryResults` loop. -/
structure AnalysisState where
  accounts : List DiscoveredAccount
  platformStats : String → PlatStats
  identifierStats : String → IdStats

/-- One iteration of the result-processing loop
(DiscoveryEngine.js lines 465-523): bump the platform `searched` tally; on a
failed task bump `errors` and `continue`; on a positive result bump `found`
and push an account; finally bump the identifier-source tallies. -/
def analyzeStep (s : AnalysisState) (d : Discovery) : AnalysisState :=
  let ps := s.platformStats d.platform
  let s1 : AnalysisState :=
    { s with platformStats :=
        updateTable s.platformStats d.platform { ps with searched := ps.searched + 1 } }
  if d.success = false then
    let ps1 := s1.platformStats d.platform
    { s1 with platformStats :=
        updateTable s1.platformStats d.platform { ps1 with errors := ps1.errors + 1 } }
  else
    let s2 : AnalysisState :=
      match d.result with
      | some r =>
        if r.existsFlag = some true then
          let ps1 := s1.platformStats d.platform
          { s1 with
            platformStats :=
              updateTable s1.platformStats d.platform { ps1 with found := ps1.found + 1 },
            accounts := s1.accounts ++ [mkAccount d r] }
        else s1
      | none => s1
    let key := d.identifier.type.str ++ ":" ++ d.identifier.source
    let is0 := s2.identifierStats key
    let s3 : AnalysisState :=
      { s2 with identifierStats :=
          updateTable s2.identifierStats key { is0 with searched := is0.searched + 1 } }
    if resultExists d then
      let is1 := s3.identifierStats key
      { s3 with identifierStats :=
          updateTable s3.identifierStats key { is1 with found := is1.found + 1 } }
    else s3

/-- The aggregation summary returned by `analyzeDiscoveryResults`
(DiscoveryEngine.js lines 534-542).  The breach-data enrichment is additive
side data and does not touch accounts or tallies; it is elided. -/
structure AnalysisResult where
  accounts : List DiscoveredAccount
  originalAccountCount : Nat
  deduplicatedAccountCount : Nat
  platformStats : String → PlatStats
  identifierStats : String → IdStats

/-- Embedding of `analyzeDiscoveryResults` (DiscoveryEngine.js lines 455-543). -/
def analyzeDiscoveryResults (ds : List Discovery) : AnalysisResult :=
  let st := ds.foldl analyzeStep ⟨[], fun _ => ⟨0, 0, 0⟩, fun _ => ⟨0, 0⟩⟩
  let dedup := deduplicateAccounts st.accounts
  { accounts := dedup,
    originalAccountCount := st.accounts.length,
    deduplicatedAccountCount := dedup.length,
    platformStats := st.platformStats,
    identifierStats := st.identifierStats }

/-! ## DiscoveryService job manager

Embedding of the `DiscoveryService` class: `startDiscovery`, `cancelJob`,
`cleanupStaleJobs` (the reaper), `moveJobToHistory`, `getJobStatus`.
JavaScript job objects are shared by reference between `activeJobs`, the
in-flight `executeDiscovery` continuation, and `cancelJob`; that aliasing is
modelled with a `heap` keyed by job id which is never deleted from, while
`activeJobs` and `pending` hold job ids and `jobHistory` holds snapshot
copies (`{...job}`). -/

/-- The `status` field of a job:
`starting → in_progress → completed | failed | cancelled | timeout`. -/
inductive JobStatus where
  | starting
  | inProgress
  | completed
  | failed
  | cancelled
  | timeout
deriving DecidableEq, Repr

/-- A job record (DiscoveryService, `startDiscovery` lines 71-82).  The
`progress`, `options` and `results` payloads carry no lifecycle logic and
are elided. -/
structure Job where
  id : String
  userId : String
  status : JobStatus
  startedAt : Nat
  completedAt : Option Nat
  cancelled : Bool
  error : Option String
deriving DecidableEq, Repr

/-- Service configuration: `{maxActiveJobs: 10, jobTimeoutMs: 300000}`. -/
structure ServiceConfig where
  maxActiveJobs : Nat
  jobTimeoutMs : Nat
deriving DecidableEq, Repr

/-- Lookup in an insertion-ordered string-keyed map (JavaScript `Map.get`). -/
def lookupAssoc {β : Type} (l : List (String × β)) (k : String) : Option β :=
  (l.find? fun p => p.1 == k).map (·.2)

/-- JavaScript `Map.set`: replace in place when the key exists (preserving insertion
order), otherwise append. -/
def setAssoc {β : Type} (l : List (String × β)) (k : String) (v : β) :
    List (String × β) :=
  if l.any (fun p => p.1 == k) then
    l.map fun p => if p.1 == k then (k, v) else p
  else
    l ++ [(k, v)]

/-- JavaScript `Map.delete` by key. -/
def eraseAssoc {β : Type} (l : List (String × β)) (k : String) : List (String × β) :=
  l.filter fun p => p.1 != k

/-- The mutable state of one `DiscoveryService` instance. -/
structure ServiceState where
  heap : List (String × Job)
  activeJobs : List (String × String)
  history : List (String × Job)
  pending : List String
  config : ServiceConfig
deriving DecidableEq, Repr

/-- Embedding of `moveJobToHistory` (DiscoveryService lines 464-475): store a snapshot
keyed by job id; when the history size exceeds 100, evict the oldest entry
(`keys().next().value`, the first inserted). -/
def moveJobToHistory (h : List (String × Job)) (job : Job) : List (String × Job) :=
  let h2 := setAssoc h job.id job
  if h2.length > 100 then h2.tail else h2

/-- The value returned by `startDiscovery`: either a job descriptor
`{jobId, status, message, startedAt}` or a thrown error. -/
inductive StartResult where
  | ok (jobId : String) (status : String) (message : String) (startedAt : Nat)
  | err (msg : String)
deriving DecidableEq, Repr

/-- Embedding of `startDiscovery` (DiscoveryService lines 38-101).  `userKnown` abstracts
the `User.findById` lookup.  When a job is created, `executeDiscovery(job)`
runs synchronously up to its first `await`, setting `job.status`
to in-progress before `startDiscovery` returns; the rest of the run is
the pending continuation settled later by `engineSettle`. -/
def startDiscovery (st : ServiceState) (userKnown : Bool) (userId newJobId : String)
    (now : Nat) : StartResult × ServiceState :=
  if userKnown = false then
    (.err "User not found", st)
  else
    match lookupAssoc st.activeJobs userId with
    | some jobId =>
      match lookupAssoc st.heap jobId with
      | some job =>
        (.ok job.id "in_progress" "Discovery already in progress" job.startedAt, st)
      | none =>
        -- Unreachable: every active job id is on the heap (jobs are created
        -- on the heap and heap entries are never removed).
        (.err "active job missing from heap", st)
    | none =>
      if st.activeJobs.length ≥ st.config.maxActiveJobs then
        (.err "Maximum number of concurrent discovery jobs reached", st)
      else
        let job : Job :=
          { id := newJobId, userId := userId, status := .inProgress,
            startedAt := now, completedAt := none, cancelled := false, error := none }
        (.ok newJobId "in_progress" "Discovery started successfully" now,
         { st with
             heap := setAssoc st.heap newJobId job,
             activeJobs := setAssoc st.activeJobs userId newJobId,
             pending := st.pending ++ [newJobId] })

/-- The tail of `executeDiscovery` (DiscoveryService lines 410-457) firing
when the engine promise settles: mark the shared job object completed or
failed, move a snapshot to history, and delete the owning user from
`activeJobs` — unconditionally, even if the job was cancelled or reaped in
the meantime.  The results payload is elided. -/
def engineSettle (st : ServiceState) (jobId : String) (outcome : Except String Unit)
    (now : Nat) : ServiceState :=
  if jobId ∈ st.pending then
    match lookupAssoc st.heap jobId with
    | some job =>
      let job2 : Job :=
        match outcome with
        | .ok _ => { job with status := .completed, completedAt := some now }
        | .error e => { job with status := .failed, completedAt := some now, error := some e }
      { st with
          heap := setAssoc st.heap jobId job2,
          history := moveJobToHistory st.history job2,
          activeJobs := eraseAssoc st.activeJobs job2.userId,
          pending := st.pending.erase jobId }
    | none => st
  else st

/-- Embedding of `cancelJob` (DiscoveryService lines 145-162): find the active job with
this id, mark the shared object cancelled, move a snapshot to history and
remove the active entry of that user.  The pending engine continuation is *not*
cancelled. -/
def cancelJob (st : ServiceState) (jobId : String) : Bool × ServiceState :=
  match st.activeJobs.find? (fun p => p.2 == jobId) with
  | some (userId, _) =>
    match lookupAssoc st.heap jobId with
    | some job =>
      let job2 : Job := { job with status := .cancelled, cancelled := true }
      (true,
       { st with
           heap := setAssoc st.heap jobId job2,
           history := moveJobToHistory st.history job2,
           activeJobs := eraseAssoc st.activeJobs userId })
    | none => (true, st)
  | none => (false, st)

/-- One entry of the reaper loop body (DiscoveryService lines 513-530). -/
def reapStep (now : Nat) (st : ServiceState) (entry : String × String) : ServiceState :=
  match lookupAssoc st.heap entry.2 with
  | some job =>
    if now - job.startedAt > st.config.jobTimeoutMs then
      let job2 : Job :=
        { job with status := .timeout, completedAt := some now, error := some "Job timed out" }
      { st with
          heap := setAssoc st.heap entry.2 job2,
          history := moveJobToHistory st.history job2,
          activeJobs := eraseAssoc st.activeJobs entry.1 }
    else st
  | none => st

/-- Embedding of `cleanupStaleJobs` (DiscoveryService lines 510-531): reap every active
job whose elapsed time exceeds `jobTimeoutMs`.  Iterating over the original
entry list matches the live `Map` iteration because each step deletes only
its own entry. -/
def cleanupStaleJobs (st : ServiceState) (now : Nat) : ServiceState :=
  st.activeJobs.foldl (reapStep now) st

/-- The observable status of a job id, following `getJobStatus`
(DiscoveryService lines 108-138): active jobs are consulted first, then the
history snapshots. -/
def getJobStatusOf (st : ServiceState) (jobId : String) : Option JobStatus :=
  if st.activeJobs.any (fun p => p.2 == jobId) then
    (lookupAssoc st.heap jobId).map (·.status)
  else
    (lookupAssoc st.history jobId).map (·.status)

/-- One externally triggered event of the job manager. -/
inductive ServiceStep where
  | start (userKnown : Bool) (userId newJobId : String) (now : Nat)
  | settle (jobId : String) (outcome : Except String Unit) (now : Nat)
  | cancel (jobId : String)
  | reap (now : Nat)

/-- Apply one event to the service state. -/
def applyStep (st : ServiceState) : ServiceStep → ServiceState
  | .start k u j n => (startDiscovery st k u j n).2
  | .settle j o n => engineSettle st j o n
  | .cancel j => (cancelJob st j).2
  | .reap n => cleanupStaleJobs st n

/-- Run a sequence of job-manager events. -/
def runSteps (st : ServiceState) (steps : List ServiceStep) : ServiceState :=
  steps.foldl applyStep st

/-- A fresh service with the default configuration
(`maxActiveJobs: 10`, `jobTimeoutMs: 300000`). -/
def initialService : ServiceState :=
  { heap := [], activeJobs := [], history := [], pending := [],
    config := { maxActiveJobs := 10, jobTimeoutMs := 300000 } }

/-! ## Specification-side definitions

Definitions written from the wording of the specification, for comparison
against the embedded code. -/

/-- Modelled from the spec, claim C2 as stated: account confidence equals
the probe confidence, defaulting to 50 **only when absent**, plus the
identifier-source bonus and the detection-method bonus, capped at 100. -/
def claimedConfidenceFormula (result : ProbeOutcome) (identifier : Identifier) : Int :=
  let own : Int :=
    match result.confidence with
    | none => 50
    | some c => c
  let sourceTable : List (String × Int) :=
    [("primary_email", 20), ("alternative_email", 15),
     ("phone_number", 10), ("common_username", 5)]
  let methodTable : List (String × Int) :=
    [("password_reset", 15), ("api_verification", 20),
     ("public_profile", 10), ("email_enumeration", 12)]
  let srcBonus : Int :=
    ((sourceTable.find? fun p => p.1 == identifier.source).map (·.2)).getD 0
  let methodBonus : Int :=
    match result.method with
    | some m => ((methodTable.find? fun p => p.1 == m).map (·.2)).getD 0
    | none => 0
  min (own + srcBonus + methodBonus) 100

/-- Modelled from the spec, claim C2 as amended: like
`claimedConfidenceFormula`, but the probe confidence falls back to 50 when
absent **or when it equals 0** (the JavaScript `||` default). -/
def amendedConfidenceFormula (result : ProbeOutcome) (identifier : Identifier) : Int :=
  let own : Int :=
    match result.confidence with
    | none => 50
    | some c => if c = 0 then 50 else c
  let sourceTable : List (String × Int) :=
    [("primary_email", 20), ("alternative_email", 15),
     ("phone_number", 10), ("common_username", 5)]
  let methodTable : List (String × Int) :=
    [("password_reset", 15), ("api_verification", 20),
     ("public_profile", 10), ("email_enumeration", 12)]
  let srcBonus : Int :=
    ((sourceTable.find? fun p => p.1 == identifier.source).map (·.2)).getD 0
  let methodBonus : Int :=
    match result.method with
    | some m => ((methodTable.find? fun p => p.1 == m).map (·.2)).getD 0
    | none => 0
  min (own + srcBonus + methodBonus) 100

/-- Modelled from the spec, claim C3: the union of the metadata fields of
two duplicate accounts (field-wise, preferring the present value, the later
duplicate winning when both are present). -/
def unionMetadata (a b : AccountMetadata) : AccountMetadata :=
  { profileUrl := b.profileUrl <|> a.profileUrl,
    isVerified := b.isVerified || a.isVerified,
    lastActivity := b.lastActivity <|> a.lastActivity,
    accountAge := b.accountAge <|> a.accountAge,
    followers := b.followers <|> a.followers,
    following := b.following <|> a.following }

/-- The accounts pushed by the `analyzeDiscoveryResults` loop, stated
directly: one account per successful task whose result exists. -/
def rawAccounts (ds : List Discovery) : List DiscoveredAccount :=
  ds.filterMap fun d =>
    match d.result, d.success with
    | some r, true =>
      if r.existsFlag = some true then some (mkAccount d r) else none
    | _, _ => none

/-! ## Lemmas about the insertion-ordered maps -/

theorem lookupAssoc_setAssoc_self {β : Type} (l : List (String × β)) (k : String) (v : β) :
    lookupAssoc (setAssoc l k v) k = some v := by
  induction l with
  | nil => simp [setAssoc, lookupAssoc]
  | cons p rest ih =>
    obtain ⟨a, b⟩ := p
    by_cases hpk : a = k
    · subst hpk
      simp [setAssoc, lookupAssoc]
    · cases hany : rest.any (fun q => q.1 == k) with
      | false =>
        have hstep : setAssoc ((a, b) :: rest) k v = (a, b) :: (rest ++ [(k, v)]) := by
          simp [setAssoc, hany, hpk]
        have htail : setAssoc rest k v = rest ++ [(k, v)] := by
          simp [setAssoc, hany]
        rw [htail] at ih
        rw [hstep]
        simpa [lookupAssoc, hpk] using ih
      | true =>
        have hstep : setAssoc ((a, b) :: rest) k v
            = (a, b) :: (rest.map fun q => if q.1 == k then (k, v) else q) := by
          simp [setAssoc, hany, hpk]
        have htail : setAssoc rest k v
            = rest.map fun q => if q.1 == k then (k, v) else q := by
          simp [setAssoc, hany]
        rw [htail] at ih
        rw [hstep]
        simpa [lookupAssoc, hpk] using ih

/-! ## Claim theorems -/

/-- Claim C7: `startDiscovery` is idempotent per requester.  If a requester
with no active job starts a job (capacity permitting), the descriptor
carries the fresh job id; a second `startDiscovery` for the same requester
returns a descriptor carrying the same job id and leaves the service state
unchanged — no second job is created. -/
theorem startDiscovery_idempotent (st : ServiceState) (u id1 id2 : String) (t1 t2 : Nat)
    (hno : lookupAssoc st.activeJobs u = none)
    (hcap : st.activeJobs.length < st.config.maxActiveJobs) :
    (startDiscovery st true u id1 t1).1
      = .ok id1 "in_progress" "Discovery started successfully" t1
    ∧ startDiscovery (startDiscovery st true u id1 t1).2 true u id2 t2
      = (.ok id1 "in_progress" "Discovery already in progress" t1,
         (startDiscovery st true u id1 t1).2) := by
  have hlt : ¬ st.activeJobs.length ≥ st.config.maxActiveJobs := by omega
  constructor
  · simp [startDiscovery, hno, hlt]
  · simp only [startDiscovery, Bool.true_eq_false, if_false, hno, hlt, if_neg hlt]
    simp [lookupAssoc_setAssoc_self]

/-- Claim C7 witness: a concrete fresh service, requester `alice`. -/
theorem startDiscovery_idempotent_witness :
    lookupAssoc initialService.activeJobs "alice" = none
    ∧ initialService.activeJobs.length < initialService.config.maxActiveJobs
    ∧ ((startDiscovery initialService true "alice" "job1" 3).1
        = .ok "job1" "in_progress" "Discovery started successfully" 3
      ∧ startDiscovery (startDiscovery initialService true "alice" "job1" 3).2
          true "alice" "job2" 8
        = (.ok "job1" "in_progress" "Discovery already in progress" 3,
           (startDiscovery initialService true "alice" "job1" 3).2)) :=
  ⟨by decide, by decide,
   startDiscovery_idempotent initialService "alice" "job1" "job2" 3 8
     (by decide) (by decide)⟩

/-- Claim C8: when the number of active jobs has reached `maxActiveJobs`,
`startDiscovery` for a requester with no active job fails with the
capacity-exceeded error and the state is unchanged — no job is created. -/
theorem startDiscovery_capacity (st : ServiceState) (u newId : String) (t : Nat)
    (hno : lookupAssoc st.activeJobs u = none)
    (hcap : st.config.maxActiveJobs ≤ st.activeJobs.length) :
    startDiscovery st true u newId t
      = (.err "Maximum number of concurrent discovery jobs reached", st) := by
  simp [startDiscovery, hno, hcap]

/-- Claim C8 witness: a service with capacity 1 and one active job rejects a
start for a second requester. -/
theorem startDiscovery_capacity_witness :
    lookupAssoc
        (ServiceState.mk
          [("job1", Job.mk "job1" "bob" .inProgress 0 none false none)]
          [("bob", "job1")] [] ["job1"] (ServiceConfig.mk 1 300000)).activeJobs
        "carol" = none
    ∧ (ServiceState.mk
          [("job1", Job.mk "job1" "bob" .inProgress 0 none false none)]
          [("bob", "job1")] [] ["job1"] (ServiceConfig.mk 1 300000)).config.maxActiveJobs
        ≤ (ServiceState.mk
          [("job1", Job.mk "job1" "bob" .inProgress 0 none false none)]
          [("bob", "job1")] [] ["job1"] (ServiceConfig.mk 1 300000)).activeJobs.length
    ∧ startDiscovery
        (ServiceState.mk
          [("job1", Job.mk "job1" "bob" .inProgress 0 none false none)]
          [("bob", "job1")] [] ["job1"] (ServiceConfig.mk 1 300000))
        true "carol" "job2" 9
      = (.err "Maximum number of concurrent discovery jobs reached",
         ServiceState.mk
          [("job1", Job.mk "job1" "bob" .inProgress 0 none false none)]
          [("bob", "job1")] [] ["job1"] (ServiceConfig.mk 1 300000)) :=
  ⟨by decide, by decide,
   startDiscovery_capacity
     (ServiceState.mk
       [("job1", Job.mk "job1" "bob" .inProgress 0 none false none)]
       [("bob", "job1")] [] ["job1"] (ServiceConfig.mk 1 300000))
     "carol" "job2" 9 (by decide) (by decide)⟩

/-- Claim C10 (implicit): a requester that already has an active job gets
the existing descriptor back even when the active-job count has reached
`maxActiveJobs`; the existing-job lookup precedes the capacity check. -/
theorem startDiscovery_existing_bypasses_capacity (st : ServiceState)
    (u newId : String) (t : Nat) (jid : String) (job : Job)
    (hactive : lookupAssoc st.activeJobs u = some jid)
    (hheap : lookupAssoc st.heap jid = some job)
    (_hcap : st.config.maxActiveJobs ≤ st.activeJobs.length) :
    startDiscovery st true u newId t
      = (.ok job.id "in_progress" "Discovery already in progress" job.startedAt, st) := by
  simp [startDiscovery, hactive, hheap]

/-- Claim C10 witness: a service at capacity still answers the requester
holding the active job with the existing descriptor. -/
theorem startDiscovery_existing_bypasses_capacity_witness :
    lookupAssoc
        (ServiceState.mk
          [("job1", Job.mk "job1" "bob" .inProgress 4 none false none)]
          [("bob", "job1")] [] ["job1"] (ServiceConfig.mk 1 300000)).activeJobs
        "bob" = some "job1"
    ∧ lookupAssoc
        (ServiceState.mk
          [("job1", Job.mk "job1" "bob" .inProgress 4 none false none)]
          [("bob", "job1")] [] ["job1"] (ServiceConfig.mk 1 300000)).heap
        "job1" = some (Job.mk "job1" "bob" .inProgress 4 none false none)
    ∧ startDiscovery
        (ServiceState.mk
          [("job1", Job.mk "job1" "bob" .inProgress 4 none false none)]
          [("bob", "job1")] [] ["job1"] (ServiceConfig.mk 1 300000))
        true "bob" "job2" 9
      = (.ok "job1" "in_progress" "Discovery already in progress" 4,
         ServiceState.mk
          [("job1", Job.mk "job1" "bob" .inProgress 4 none false none)]
          [("bob", "job1")] [] ["job1"] (ServiceConfig.mk 1 300000)) :=
  ⟨by decide, by decide,
   startDiscovery_existing_bypasses_capacity
     (ServiceState.mk
       [("job1", Job.mk "job1" "bob" .inProgress 4 none false none)]
       [("bob", "job1")] [] ["job1"] (ServiceConfig.mk 1 300000))
     "bob" "job2" 9 "job1" (Job.mk "job1" "bob" .inProgress 4 none false none)
     (by decide) (by decide) (by decide)⟩

/-- Claim C9, failing execution: cancelling a job while its engine run is in
flight moves it to history as `cancelled`, but when the pending engine
continuation settles it overwrites the history entry to `completed` — a
terminal state is not final, contradicting the specified state machine. -/
theorem beq_false_of_ne {s t : String} (h : ¬ t = s) : (s == t) = false := by
  rw [beq_eq_false_iff_ne]
  exact fun hh => h hh.symm

theorem calculateAccountConfidence_eq_amended (r : ProbeOutcome) (i : Identifier) :
    calculateAccountConfidence r i = amendedConfidenceFormula r i := by
  unfold calculateAccountConfidence amendedConfidenceFormula
  have hsrc :
      (if i.source = "primary_email" then (20 : Int)
       else if i.source = "alternative_email" then 15
       else if i.source = "phone_number" then 10
       else if i.source = "common_username" then 5
       else 0)
      = ((([("primary_email", (20 : Int)), ("alternative_email", 15),
            ("phone_number", 10), ("common_username", 5)].find?
              fun p => p.1 == i.source).map (·.2)).getD 0) := by
    by_cases h1 : i.source = "primary_email"
    · simp [h1]
    · by_cases h2 : i.source = "alternative_email"
      · simp [h2]
      · by_cases h3 : i.source = "phone_number"
        · simp [h3]
        · by_cases h4 : i.source = "common_username"
          · simp [h4]
          · simp [List.find?, h1, h2, h3, h4, beq_false_of_ne h1,
              beq_false_of_ne h2, beq_false_of_ne h3, beq_false_of_ne h4]
  have hmethod :
      (match r.method with
       | some m =>
         if m = "password_reset" then (15 : Int)
         else if m = "api_verification" then 20
         else if m = "public_profile" then 10
         else if m = "email_enumeration" then 12
         else 0
       | none => 0)
      = (match r.method with
         | some m =>
           ((([("password_reset", (15 : Int)), ("api_verification", 20),
               ("public_profile", 10), ("email_enumeration", 12)].find?
                 fun p => p.1 == m).map (·.2)).getD 0)
         | none => 0) := by
    cases r.method with
    | none => rfl
    | some m =>
      by_cases h1 : m = "password_reset"
      · simp [h1]
      · by_cases h2 : m = "api_verification"
        · simp [h2]
        · by_cases h3 : m = "public_profile"
          · simp [h3]
          · by_cases h4 : m = "email_enumeration"
            · simp [h4]
            · simp [List.find?, h1, h2, h3, h4, beq_false_of_ne h1,
                beq_false_of_ne h2, beq_false_of_ne h3, beq_false_of_ne h4]
  rw [hsrc, hmethod]

/-- Claim C2, counterexample to the claim as stated: a probe with
exists = true, explicit confidence 0 and method password_reset from a
primary-email identifier.  The claimed formula gives
min(0 + 20 + 15, 100) = 35, but the code treats the falsy 0 like an absent
confidence and gives min(50 + 20 + 15, 100) = 85. -/
theorem confidence_formula_zero_counterexample :
    (ProbeOutcome.mk (some true) (some 0) (some "password_reset")
        none none none none none none).existsFlag = some true
    ∧ calculateAccountConfidence
        (ProbeOutcome.mk (some true) (some 0) (some "password_reset")
          none none none none none none)
        (Identifier.mk .email "user@example.com" 100 "primary_email") = 85
    ∧ claimedConfidenceFormula
        (ProbeOutcome.mk (some true) (some 0) (some "password_reset")
          none none none none none none)
        (Identifier.mk .email "user@example.com" 100 "primary_email") = 35
    ∧ ¬ calculateAccountConfidence
          (ProbeOutcome.mk (some true) (some 0) (some "password_reset")
            none none none none none none)
          (Identifier.mk .email "user@example.com" 100 "primary_email")
        = claimedConfidenceFormula
            (ProbeOutcome.mk (some true) (some 0) (some "password_reset")
              none none none none none none)
            (Identifier.mk .email "user@example.com" 100 "primary_email") := by
  refine ⟨rfl, by decide, by decide, by decide⟩

/-- Claim C2 as amended: for every probe result with exists = true the
account confidence equals the probe confidence — defaulting to 50 when it
is absent **or zero** — plus the identifier-source bonus (primary email
+20, alternate email +15, phone +10, username +5) plus the
detection-method bonus (password_reset +15, api_verification +20,
public_profile +10, email_enumeration +12), capped at 100; in particular a
primary-email probe returning exists = true, method password_reset,
confidence 70 yields an aggregated account of confidence 100. -/
theorem confidence_formula_amended (r : ProbeOutcome) (i : Identifier)
    (_hex : r.existsFlag = some true) :
    calculateAccountConfidence r i = amendedConfidenceFormula r i
    ∧ (analyzeDiscoveryResults
        [Discovery.mk "P" (Identifier.mk .email "user@example.com" 100 "primary_email")
          (some (ProbeOutcome.mk (some true) (some 70) (some "password_reset")
            none none none none none none))
          true none]).accounts.map (·.confidence) = [100] :=
  ⟨calculateAccountConfidence_eq_amended r i, by decide⟩

/-- Claim C2 witness: the amended formula evaluated at the scenario probe. -/
theorem confidence_formula_amended_witness :
    (ProbeOutcome.mk (some true) (some 70) (some "password_reset")
        none none none none none none).existsFlag = some true
    ∧ (calculateAccountConfidence
        (ProbeOutcome.mk (some true) (some 70) (some "password_reset")
          none none none none none none)
        (Identifier.mk .email "user@example.com" 100 "primary_email")
      = amendedConfidenceFormula
          (ProbeOutcome.mk (some true) (some 70) (some "password_reset")
            none none none none none none)
          (Identifier.mk .email "user@example.com" 100 "primary_email")
      ∧ (analyzeDiscoveryResults
          [Discovery.mk "P" (Identifier.mk .email "user@example.com" 100 "primary_email")
            (some (ProbeOutcome.mk (some true) (some 70) (some "password_reset")
              none none none none none none))
            true none]).accounts.map (·.confidence) = [100]) :=
  ⟨rfl,
   confidence_formula_amended
     (ProbeOutcome.mk (some true) (some 70) (some "password_reset")
       none none none none none none)
     (Identifier.mk .email "user@example.com" 100 "primary_email") rfl⟩

/-- Claim C1, counterexample to the claim as stated: for an adapter probe
reporting exists = true with a negative confidence, the aggregated account
confidence is negative — the code caps only the upper end
(`Math.min(confidence, 100)`), so not every probe result yields a
confidence in [0, 100]. -/
theorem confidence_range_counterexample :
    ¬ (∀ a ∈ (analyzeDiscoveryResults
        [Discovery.mk "example"
          (Identifier.mk .email "user@example.com" 100 "primary_email")
          (some (ProbeOutcome.mk (some true) (some (-100)) (some "api_verification")
            none none none none none none))
          true none]).accounts,
        0 ≤ a.confidence ∧ a.confidence ≤ 100) := by
  decide

theorem cancelled_job_overwritten_to_completed :
    getJobStatusOf
        (runSteps initialService
          [.start true "alice" "job1" 0, .cancel "job1"]) "job1"
      = some .cancelled
    ∧ getJobStatusOf
        (runSteps initialService
          [.start true "alice" "job1" 0, .cancel "job1",
           .settle "job1" (Except.ok ()) 5]) "job1"
      = some .completed := by
  constructor
  · decide
  · decide

/-- Claim C4: the scheduler creates exactly the cross-join of
platforms × identifiers minus the pairs whose identifier type the platform
does not support (phone lookup restricted to the allow-list); a membership
characterisation, plus the concrete count: one email and two phone
identifiers against twitter (supports all three) and linkedin (which
supports only the email among them) yield exactly 4 tasks. -/
theorem task_cross_join :
    (∀ (ids : List Identifier) (ps : List Platform) (t : DiscoveryTask),
      t ∈ buildDiscoveryTasks ids ps ↔
        ∃ p ∈ ps, t.platform = p.key ∧ t.identifier ∈ ids
          ∧ platformSupportsIdentifierType p t.identifier.type = true)
    ∧ (buildDiscoveryTasks
        [Identifier.mk .email "user@example.com" 100 "primary_email",
         Identifier.mk .phone "15551230001" 85 "phone_number",
         Identifier.mk .phone "15551230002" 85 "phone_number"]
        [Platform.mk "twitter", Platform.mk "linkedin"]).length = 4 := by
  constructor
  · intro ids ps t
    simp only [buildDiscoveryTasks, List.mem_flatMap, List.mem_map, List.mem_filter]
    constructor
    · rintro ⟨p, hp, i, ⟨hi, hsup⟩, rfl⟩
      exact ⟨p, hp, rfl, hi, hsup⟩
    · rintro ⟨p, hp, hplat, hid, hsup⟩
      refine ⟨p, hp, t.identifier, ⟨hid, hsup⟩, ?_⟩
      cases t
      simp_all
  · decide

theorem chunkArray_flatten_aux {α : Type} (n : Nat) :
    ∀ (fuel : Nat) (l : List α), l.length ≤ fuel →
      (chunkArray l (n + 1)).flatten = l := by
  intro fuel
  induction fuel with
  | zero =>
    intro l hl
    have hnil : l = [] := List.eq_nil_of_length_eq_zero (Nat.le_zero.mp hl)
    subst hnil
    simp [chunkArray]
  | succ f ih =>
    intro l hl
    cases l with
    | nil => simp [chunkArray]
    | cons a tl =>
      rw [chunkArray]
      rw [List.flatten_cons]
      rw [ih ((a :: tl).drop (n + 1)) (by simp only [List.length_drop, List.length_cons] at hl ⊢; omega)]
      exact List.take_append_drop _ _

theorem chunkArray_flatten {α : Type} (l : List α) (n : Nat) (h : 0 < n) :
    (chunkArray l n).flatten = l := by
  obtain ⟨m, rfl⟩ : ∃ m, n = m + 1 := ⟨n - 1, by omega⟩
  exact chunkArray_flatten_aux m l.length l (le_refl _)

theorem chunkArray_length_le {α : Type} (n : Nat) :
    ∀ (fuel : Nat) (l : List α), l.length ≤ fuel →
      ∀ c ∈ chunkArray l (n + 1), c.length ≤ n + 1 := by
  intro fuel
  induction fuel with
  | zero =>
    intro l hl c hc
    have hnil : l = [] := List.eq_nil_of_length_eq_zero (Nat.le_zero.mp hl)
    subst hnil
    simp [chunkArray] at hc
  | succ f ih =>
    intro l hl c hc
    cases l with
    | nil => simp [chunkArray] at hc
    | cons a tl =>
      rw [chunkArray] at hc
      rcases List.mem_cons.mp hc with hhead | htail
      · subst hhead
        simp [List.length_take]
      · exact ih ((a :: tl).drop (n + 1)) (by simp only [List.length_drop, List.length_cons] at hl ⊢; omega) c htail

theorem traceFrom_rank_lb (allChunks : List (List DiscoveryTask)) :
    ∀ (chunks : List (List DiscoveryTask)) (i : Nat) (e : SchedEvent),
      e ∈ traceFrom allChunks chunks i → 2 * i ≤ e.rank := by
  intro chunks
  induction chunks with
  | nil =>
    intro i e he
    simp [traceFrom] at he
  | cons c rest ih =>
    intro i e he
    rw [traceFrom, List.append_assoc] at he
    rcases List.mem_append.mp he with hsettle | hrest
    · rcases List.mem_map.mp hsettle with ⟨t, _, rfl⟩
      simp [SchedEvent.rank]
    · rcases List.mem_append.mp hrest with hdelay | htail
      · rcases Decidable.em (i + 1 < allChunks.length) with hc | hc
        · rw [if_pos hc] at hdelay
          rcases List.mem_singleton.mp hdelay with rfl
          simp [SchedEvent.rank]
        · rw [if_neg hc] at hdelay
          simp at hdelay
      · have := ih (i + 1) e htail
        omega

theorem traceFrom_pairwise (allChunks : List (List DiscoveryTask)) :
    ∀ (chunks : List (List DiscoveryTask)) (i : Nat),
      (traceFrom allChunks chunks i).Pairwise fun a b => a.rank ≤ b.rank := by
  intro chunks
  induction chunks with
  | nil =>
    intro i
    simp [traceFrom]
  | cons c rest ih =>
    intro i
    rw [traceFrom, List.append_assoc]
    rw [List.pairwise_append]
    refine ⟨?_, ?_, ?_⟩
    · rw [List.pairwise_map]
      exact List.pairwise_iff_forall_sublist.mpr fun _ => Nat.le_refl _
    · rw [List.pairwise_append]
      refine ⟨?_, ih (i + 1), ?_⟩
      · rcases Decidable.em (i + 1 < allChunks.length) with hc | hc
        · rw [if_pos hc]
          exact List.pairwise_singleton _ _
        · rw [if_neg hc]
          exact List.Pairwise.nil
      · intro a ha b hb
        rcases Decidable.em (i + 1 < allChunks.length) with hc | hc
        · rw [if_pos hc] at ha
          rcases List.mem_singleton.mp ha with rfl
          have := traceFrom_rank_lb allChunks rest (i + 1) b hb
          have hr : (SchedEvent.interChunkDelay i).rank = 2 * i + 1 := rfl
          omega
        · rw [if_neg hc] at ha
          simp at ha
    · intro a ha b hb
      rcases List.mem_map.mp ha with ⟨t, _, rfl⟩
      rcases List.mem_append.mp hb with hdelay | htail
      · rcases Decidable.em (i + 1 < allChunks.length) with hc | hc
        · rw [if_pos hc] at hdelay
          rcases List.mem_singleton.mp hdelay with rfl
          simp [SchedEvent.rank]
        · rw [if_neg hc] at hdelay
          simp at hdelay
      · have := traceFrom_rank_lb allChunks rest (i + 1) b htail
        have hr : (SchedEvent.settle t i).rank = 2 * i := rfl
        omega

theorem traceFrom_delay_mem (allChunks : List (List DiscoveryTask)) :
    ∀ (chunks : List (List DiscoveryTask)) (i j : Nat),
      i ≤ j → j < i + chunks.length → j + 1 < allChunks.length →
      SchedEvent.interChunkDelay j ∈ traceFrom allChunks chunks i := by
  intro chunks
  induction chunks with
  | nil =>
    intro i j hij hlen _
    simp at hlen
    omega
  | cons c rest ih =>
    intro i j hij hlen hall
    rw [traceFrom, List.append_assoc]
    rcases Nat.eq_or_lt_of_le hij with rfl | hlt
    · apply List.mem_append.mpr
      right
      apply List.mem_append.mpr
      left
      rw [if_pos hall]
      exact List.mem_singleton.mpr rfl
    · apply List.mem_append.mpr
      right
      apply List.mem_append.mpr
      right
      apply ih (i + 1) j hlt (by simp at hlen ⊢; omega) hall

/-- Claim C5: for every task list and positive chunk bound, the chunks are
consecutive, each of size at most the bound, and their concatenation is the
original task list; in the execution schedule every settlement of chunk N
precedes the chunk-N delay, which precedes every event of chunk N + 1 (the
rank order is monotone along the trace), and the inter-chunk delay is
present after every non-final chunk. -/
theorem chunked_execution_ordering (tasks : List DiscoveryTask) (limit : Nat)
    (h : 0 < limit) :
    (chunkArray tasks limit).flatten = tasks
    ∧ (∀ c ∈ chunkArray tasks limit, c.length ≤ limit)
    ∧ (executionTrace tasks limit).Pairwise (fun a b => a.rank ≤ b.rank)
    ∧ (∀ i, i + 1 < (chunkArray tasks limit).length →
        SchedEvent.interChunkDelay i ∈ executionTrace tasks limit) := by
  obtain ⟨m, rfl⟩ : ∃ m, limit = m + 1 := ⟨limit - 1, by omega⟩
  refine ⟨chunkArray_flatten tasks (m + 1) h, ?_, ?_, ?_⟩
  · exact chunkArray_length_le m tasks.length tasks (le_refl _)
  · exact traceFrom_pairwise _ _ 0
  · intro i hi
    exact traceFrom_delay_mem _ _ 0 i (Nat.zero_le i) (by omega) hi

/-- Claim C5 witness: three concrete tasks, chunk bound 2. -/
theorem chunked_execution_witness :
    0 < 2
    ∧ ((chunkArray
          [DiscoveryTask.mk "twitter" (Identifier.mk .email "a@b.c" 100 "primary_email"),
           DiscoveryTask.mk "twitter" (Identifier.mk .phone "155512" 85 "phone_number"),
           DiscoveryTask.mk "linkedin" (Identifier.mk .email "a@b.c" 100 "primary_email")]
          2).flatten
        = [DiscoveryTask.mk "twitter" (Identifier.mk .email "a@b.c" 100 "primary_email"),
           DiscoveryTask.mk "twitter" (Identifier.mk .phone "155512" 85 "phone_number"),
           DiscoveryTask.mk "linkedin" (Identifier.mk .email "a@b.c" 100 "primary_email")]
      ∧ (∀ c ∈ chunkArray
          [DiscoveryTask.mk "twitter" (Identifier.mk .email "a@b.c" 100 "primary_email"),
           DiscoveryTask.mk "twitter" (Identifier.mk .phone "155512" 85 "phone_number"),
           DiscoveryTask.mk "linkedin" (Identifier.mk .email "a@b.c" 100 "primary_email")]
          2, c.length ≤ 2)
      ∧ (executionTrace
          [DiscoveryTask.mk "twitter" (Identifier.mk .email "a@b.c" 100 "primary_email"),
           DiscoveryTask.mk "twitter" (Identifier.mk .phone "155512" 85 "phone_number"),
           DiscoveryTask.mk "linkedin" (Identifier.mk .email "a@b.c" 100 "primary_email")]
          2).Pairwise (fun a b => a.rank ≤ b.rank)
      ∧ (∀ i, i + 1 < (chunkArray
          [DiscoveryTask.mk "twitter" (Identifier.mk .email "a@b.c" 100 "primary_email"),
           DiscoveryTask.mk "twitter" (Identifier.mk .phone "155512" 85 "phone_number"),
           DiscoveryTask.mk "linkedin" (Identifier.mk .email "a@b.c" 100 "primary_email")]
          2).length →
          SchedEvent.interChunkDelay i ∈ executionTrace
            [DiscoveryTask.mk "twitter" (Identifier.mk .email "a@b.c" 100 "primary_email"),
             DiscoveryTask.mk "twitter" (Identifier.mk .phone "155512" 85 "phone_number"),
             DiscoveryTask.mk "linkedin" (Identifier.mk .email "a@b.c" 100 "primary_email")]
            2)) :=
  ⟨by decide,
   chunked_execution_ordering
     [DiscoveryTask.mk "twitter" (Identifier.mk .email "a@b.c" 100 "primary_email"),
      DiscoveryTask.mk "twitter" (Identifier.mk .phone "155512" 85 "phone_number"),
      DiscoveryTask.mk "linkedin" (Identifier.mk .email "a@b.c" 100 "primary_email")]
     2 (by decide)⟩

theorem executeAcross_eq_map (ids : List Identifier) (ps : List Platform)
    (oracle : DiscoveryTask → Except String ProbeOutcome) (limit : Nat)
    (h : 0 < limit) :
    executeDiscoveryAcrossPlatforms ids ps oracle limit
      = (buildDiscoveryTasks ids ps).map fun t => executeDiscoveryTask t (oracle t) := by
  unfold executeDiscoveryAcrossPlatforms
  have heta : (fun chunk : List DiscoveryTask =>
      chunk.map fun t => executeDiscoveryTask t (oracle t))
      = List.map fun t => executeDiscoveryTask t (oracle t) := rfl
  rw [heta, ← List.map_flatten, chunkArray_flatten _ _ h]

theorem analyzeStep_accounts (s : AnalysisState) (d : Discovery) :
    (analyzeStep s d).accounts = s.accounts ++
      (match d.result, d.success with
       | some r, true => if r.existsFlag = some true then [mkAccount d r] else []
       | _, _ => []) := by
  unfold analyzeStep
  cases hsucc : d.success with
  | false => simp
  | true =>
    cases hres : d.result with
    | none => simp [resultExists, hres]
    | some r =>
      by_cases hex : r.existsFlag = some true
      · simp [resultExists, hres, hex]
      · simp [resultExists, hres, hex]

theorem rawAccounts_cons (d : Discovery) (rest : List Discovery) :
    rawAccounts (d :: rest)
      = (match d.result, d.success with
         | some r, true => if r.existsFlag = some true then [mkAccount d r] else []
         | _, _ => []) ++ rawAccounts rest := by
  unfold rawAccounts
  rw [List.filterMap_cons]
  rcases hres : d.result with _ | r
  · simp
  · cases hsucc : d.success
    · simp
    · by_cases hex : r.existsFlag = some true <;> simp [hex]

theorem analyze_fold_accounts :
    ∀ (ds : List Discovery) (s : AnalysisState),
      (ds.foldl analyzeStep s).accounts = s.accounts ++ rawAccounts ds := by
  intro ds
  induction ds with
  | nil =>
    intro s
    simp [rawAccounts]
  | cons d rest ih =>
    intro s
    rw [List.foldl_cons, ih, analyzeStep_accounts, rawAccounts_cons, List.append_assoc]

theorem analyzeStep_errors (s : AnalysisState) (d : Discovery) (p : String) :
    ((analyzeStep s d).platformStats p).errors
      = (s.platformStats p).errors
        + (if p = d.platform ∧ d.success = false then 1 else 0) := by
  unfold analyzeStep updateTable
  by_cases hp : p = d.platform
  · cases hsucc : d.success with
    | false => simp [hp]
    | true =>
      cases hres : d.result with
      | none => simp [resultExists, hres, hp, hsucc]
      | some r =>
        by_cases hex : r.existsFlag = some true
        · simp [resultExists, hres, hp, hsucc, hex]
        · simp [resultExists, hres, hp, hsucc, hex]
  · cases hsucc : d.success with
    | false => simp [hp]
    | true =>
      cases hres : d.result with
      | none => simp [resultExists, hres, hp, hsucc]
      | some r =>
        by_cases hex : r.existsFlag = some true
        · simp [resultExists, hres, hp, hsucc, hex]
        · simp [resultExists, hres, hp, hsucc, hex]

theorem analyze_fold_errors :
    ∀ (ds : List Discovery) (s : AnalysisState) (p : String),
      ((ds.foldl analyzeStep s).platformStats p).errors
        = (s.platformStats p).errors
          + (ds.filter fun d => d.platform == p && !d.success).length := by
  intro ds
  induction ds with
  | nil =>
    intro s p
    simp
  | cons d rest ih =>
    intro s p
    rw [List.foldl_cons, ih, analyzeStep_errors]
    rw [List.filter_cons]
    by_cases hp : p = d.platform
    · cases hsucc : d.success
      · simp [hp, hsucc, beq_iff_eq]
        omega
      · simp [hp, hsucc, beq_iff_eq]
    · cases hsucc : d.success
      · have hne : (d.platform == p) = false := beq_false_of_ne hp
        simp [hp, hsucc, hne]
      · have hne : (d.platform == p) = false := beq_false_of_ne hp
        simp [hp, hsucc, hne]

theorem replaceAtKey_subset :
    ∀ (acc : List DiscoveredAccount) (k : String) (a b : DiscoveredAccount),
      b ∈ replaceAtKey acc k a → b ∈ acc ∨ b = a := by
  intro acc
  induction acc with
  | nil =>
    intro k a b hb
    simp [replaceAtKey] at hb
  | cons c rest ih =>
    intro k a b hb
    rw [replaceAtKey] at hb
    by_cases hck : canonicalKey c = k
    · rw [if_pos hck] at hb
      rcases List.mem_cons.mp hb with hb1 | hb2
      · by_cases hgt : a.confidence > c.confidence
        · rw [if_pos hgt] at hb1
          exact Or.inr hb1
        · rw [if_neg hgt] at hb1
          exact Or.inl (List.mem_cons.mpr (Or.inl hb1))
      · exact Or.inl (List.mem_cons.mpr (Or.inr hb2))
    · rw [if_neg hck] at hb
      rcases List.mem_cons.mp hb with hb1 | hb2
      · exact Or.inl (List.mem_cons.mpr (Or.inl hb1))
      · rcases ih k a b hb2 with h | h
        · exact Or.inl (List.mem_cons.mpr (Or.inr h))
        · exact Or.inr h

theorem dedup_fold_subset :
    ∀ (inp acc : List DiscoveredAccount) (seen : List String) (b : DiscoveredAccount),
      b ∈ (inp.foldl dedupStep (acc, seen)).1 → b ∈ acc ∨ b ∈ inp := by
  intro inp
  induction inp with
  | nil =>
    intro acc seen b hb
    simp at hb
    exact Or.inl hb
  | cons a rest ih =>
    intro acc seen b hb
    rw [List.foldl_cons] at hb
    by_cases hk : canonicalKey a ∈ seen
    · have hstep : dedupStep (acc, seen) a = (replaceAtKey acc (canonicalKey a) a, seen) := by
        unfold dedupStep
        rw [if_pos hk]
      rw [hstep] at hb
      rcases ih _ _ b hb with h | h
      · rcases replaceAtKey_subset acc _ a b h with h2 | h2
        · exact Or.inl h2
        · exact Or.inr (List.mem_cons.mpr (Or.inl h2))
      · exact Or.inr (List.mem_cons.mpr (Or.inr h))
    · have hstep : dedupStep (acc, seen) a = (acc ++ [a], canonicalKey a :: seen) := by
        unfold dedupStep
        rw [if_neg hk]
      rw [hstep] at hb
      rcases ih _ _ b hb with h | h
      · rcases List.mem_append.mp h with h2 | h2
        · exact Or.inl h2
        · exact Or.inr (List.mem_cons.mpr (Or.inl (List.mem_singleton.mp h2)))
      · exact Or.inr (List.mem_cons.mpr (Or.inr h))

theorem deduplicateAccounts_subset (l : List DiscoveredAccount) (b : DiscoveredAccount)
    (hb : b ∈ deduplicateAccounts l) : b ∈ l := by
  unfold deduplicateAccounts at hb
  rcases dedup_fold_subset l [] [] b hb with h | h
  · simp at h
  · exact h

theorem analyze_accounts_eq (ds : List Discovery) :
    (analyzeDiscoveryResults ds).accounts = deduplicateAccounts (rawAccounts ds) := by
  unfold analyzeDiscoveryResults
  have := analyze_fold_accounts ds ⟨[], fun _ => ⟨0, 0, 0⟩, fun _ => ⟨0, 0⟩⟩
  simp at this
  simp [this]

theorem analyze_mem_accounts (ds : List Discovery) (a : DiscoveredAccount)
    (ha : a ∈ (analyzeDiscoveryResults ds).accounts) :
    ∃ d ∈ ds, d.success = true
      ∧ ∃ r, d.result = some r ∧ r.existsFlag = some true ∧ a = mkAccount d r := by
  rw [analyze_accounts_eq] at ha
  have hraw := deduplicateAccounts_subset _ _ ha
  unfold rawAccounts at hraw
  rcases List.mem_filterMap.mp hraw with ⟨d, hd, hfd⟩
  refine ⟨d, hd, ?_⟩
  rcases hres : d.result with _ | r
  · rw [hres] at hfd
    cases hsucc : d.success <;> rw [hsucc] at hfd <;> simp at hfd
  · rw [hres] at hfd
    cases hsucc : d.success <;> rw [hsucc] at hfd
    · simp at hfd
    · have hfd2 : (if r.existsFlag = some true then some (mkAccount d r) else none)
          = some a := hfd
      by_cases hex : r.existsFlag = some true
      · rw [if_pos hex] at hfd2
        exact ⟨rfl, r, rfl, hex, (Option.some.inj hfd2).symm⟩
      · rw [if_neg hex] at hfd2
        simp at hfd2

theorem analyze_errors_eq (ds : List Discovery) (p : String) :
    ((analyzeDiscoveryResults ds).platformStats p).errors
      = (ds.filter fun d => d.platform == p && !d.success).length := by
  unfold analyzeDiscoveryResults
  have := analyze_fold_errors ds ⟨[], fun _ => ⟨0, 0, 0⟩, fun _ => ⟨0, 0⟩⟩ p
  simpa using this

/-- Claim C6: a failed task never aborts its siblings, its chunk, or the
job: execution produces exactly one record per task whatever the adapter
outcomes (no exception escapes to job level), a failed task is recorded
with success = false and a null result, each failure is counted in the
per-platform error tally, and every aggregated account is derived from a
successful task with a positive result — failures contribute none. -/
theorem task_failure_isolation (ids : List Identifier) (ps : List Platform)
    (oracle : DiscoveryTask → Except String ProbeOutcome) (limit : Nat)
    (h : 0 < limit) :
    executeDiscoveryAcrossPlatforms ids ps oracle limit
      = ((buildDiscoveryTasks ids ps).map fun t => executeDiscoveryTask t (oracle t))
    ∧ (∀ (t : DiscoveryTask) (e : String),
        (executeDiscoveryTask t (Except.error e)).success = false
        ∧ (executeDiscoveryTask t (Except.error e)).result = none)
    ∧ (∀ p : String,
        ((analyzeDiscoveryResults
            (executeDiscoveryAcrossPlatforms ids ps oracle limit)).platformStats p).errors
          = ((executeDiscoveryAcrossPlatforms ids ps oracle limit).filter
              fun d => d.platform == p && !d.success).length)
    ∧ (∀ a ∈ (analyzeDiscoveryResults
          (executeDiscoveryAcrossPlatforms ids ps oracle limit)).accounts,
        ∃ d ∈ executeDiscoveryAcrossPlatforms ids ps oracle limit,
          d.success = true
          ∧ ∃ r, d.result = some r ∧ r.existsFlag = some true ∧ a = mkAccount d r) := by
  refine ⟨executeAcross_eq_map ids ps oracle limit h, ?_, ?_, ?_⟩
  · intro t e
    exact ⟨rfl, rfl⟩
  · intro p
    exact analyze_errors_eq _ p
  · intro a ha
    exact analyze_mem_accounts _ a ha

/-- Claim C6 witness: one email identifier against twitter with an adapter
oracle that always throws. -/
theorem task_failure_isolation_witness :
    0 < 5
    ∧ (executeDiscoveryAcrossPlatforms
        [Identifier.mk .email "a@b.c" 100 "primary_email"] [Platform.mk "twitter"]
        (fun _ => Except.error "network down") 5
      = ((buildDiscoveryTasks
          [Identifier.mk .email "a@b.c" 100 "primary_email"] [Platform.mk "twitter"]).map
            fun t => executeDiscoveryTask t ((fun _ => Except.error "network down") t))
    ∧ (∀ (t : DiscoveryTask) (e : String),
        (executeDiscoveryTask t (Except.error e)).success = false
        ∧ (executeDiscoveryTask t (Except.error e)).result = none)
    ∧ (∀ p : String,
        ((analyzeDiscoveryResults
            (executeDiscoveryAcrossPlatforms
              [Identifier.mk .email "a@b.c" 100 "primary_email"] [Platform.mk "twitter"]
              (fun _ => Except.error "network down") 5)).platformStats p).errors
          = ((executeDiscoveryAcrossPlatforms
              [Identifier.mk .email "a@b.c" 100 "primary_email"] [Platform.mk "twitter"]
              (fun _ => Except.error "network down") 5).filter
              fun d => d.platform == p && !d.success).length)
    ∧ (∀ a ∈ (analyzeDiscoveryResults
          (executeDiscoveryAcrossPlatforms
            [Identifier.mk .email "a@b.c" 100 "primary_email"] [Platform.mk "twitter"]
            (fun _ => Except.error "network down") 5)).accounts,
        ∃ d ∈ executeDiscoveryAcrossPlatforms
            [Identifier.mk .email "a@b.c" 100 "primary_email"] [Platform.mk "twitter"]
            (fun _ => Except.error "network down") 5,
          d.success = true
          ∧ ∃ r, d.result = some r ∧ r.existsFlag = some true ∧ a = mkAccount d r)) :=
  ⟨by decide,
   task_failure_isolation
     [Identifier.mk .email "a@b.c" 100 "primary_email"] [Platform.mk "twitter"]
     (fun _ => Except.error "network down") 5 (by decide)⟩

theorem calculateAccountConfidence_bounds (r : ProbeOutcome) (i : Identifier)
    (hc : ∀ c, r.confidence = some c → 0 ≤ c) :
    0 ≤ calculateAccountConfidence r i ∧ calculateAccountConfidence r i ≤ 100 := by
  have hbase : 0 ≤ (match r.confidence with
      | none => (50 : Int)
      | some c => if c = 0 then 50 else c) := by
    cases hr : r.confidence with
    | none => norm_num
    | some c =>
      have := hc c hr
      by_cases h0 : c = 0
      · simp [h0]
      · simp [h0]
        omega
  have hsrc : 0 ≤ (if i.source = "primary_email" then (20 : Int)
      else if i.source = "alternative_email" then 15
      else if i.source = "phone_number" then 10
      else if i.source = "common_username" then 5
      else 0) := by
    split_ifs <;> norm_num
  have hmeth : 0 ≤ (match r.method with
      | some m =>
        if m = "password_reset" then (15 : Int)
        else if m = "api_verification" then 20
        else if m = "public_profile" then 10
        else if m = "email_enumeration" then 12
        else 0
      | none => 0) := by
    cases r.method with
    | none => exact le_refl 0
    | some m =>
      show 0 ≤ (if m = "password_reset" then (15 : Int)
        else if m = "api_verification" then 20
        else if m = "public_profile" then 10
        else if m = "email_enumeration" then 12
        else 0)
      split_ifs <;> norm_num
  unfold calculateAccountConfidence
  refine ⟨le_min ?_ (by norm_num), min_le_right _ _⟩
  have := add_nonneg (add_nonneg hbase hsrc) hmeth
  exact this

/-- Claim C1 as amended: every aggregated account has confidence ≤ 100
unconditionally, and confidence in [0, 100] provided each probe result
carries a nonnegative confidence (absent or zero confidences fall back to
50); the code lower-clamps nothing, so the lower bound needs nonnegative
adapter inputs. -/
theorem confidence_range_of_nonneg_probe (ds : List Discovery) :
    (∀ a ∈ (analyzeDiscoveryResults ds).accounts, a.confidence ≤ 100)
    ∧ ((∀ d ∈ ds, ∀ r, d.result = some r → ∀ c, r.confidence = some c → 0 ≤ c) →
        ∀ a ∈ (analyzeDiscoveryResults ds).accounts,
          0 ≤ a.confidence ∧ a.confidence ≤ 100) := by
  constructor
  · intro a ha
    rcases analyze_mem_accounts ds a ha with ⟨d, _, _, r, _, _, rfl⟩
    show calculateAccountConfidence r d.identifier ≤ 100
    unfold calculateAccountConfidence
    exact min_le_right _ _
  · intro h a ha
    rcases analyze_mem_accounts ds a ha with ⟨d, hd, _, r, hres, _, rfl⟩
    exact calculateAccountConfidence_bounds r d.identifier (h d hd r hres)

/-- Claim C1 witness: a single positive probe with confidence 70, at which
the nonnegativity hypothesis of the conditional lower bound is discharged
concretely. -/
theorem confidence_range_witness :
    (∀ d ∈ [Discovery.mk "twitter"
        (Identifier.mk .email "a@b.c" 100 "primary_email")
        (some (ProbeOutcome.mk (some true) (some 70) (some "password_reset")
          none none none none none none))
        true none],
      ∀ r, d.result = some r → ∀ c, r.confidence = some c → 0 ≤ c)
    ∧ (∀ a ∈ (analyzeDiscoveryResults
        [Discovery.mk "twitter"
          (Identifier.mk .email "a@b.c" 100 "primary_email")
          (some (ProbeOutcome.mk (some true) (some 70) (some "password_reset")
            none none none none none none))
          true none]).accounts,
        0 ≤ a.confidence ∧ a.confidence ≤ 100) :=
  ⟨by decide,
   (confidence_range_of_nonneg_probe
     [Discovery.mk "twitter"
       (Identifier.mk .email "a@b.c" 100 "primary_email")
       (some (ProbeOutcome.mk (some true) (some 70) (some "password_reset")
         none none none none none none))
       true none]).2
     (by decide)⟩

theorem replaceAtKey_keys :
    ∀ (acc : List DiscoveredAccount) (k : String) (a : DiscoveredAccount),
      canonicalKey a = k →
      (replaceAtKey acc k a).map canonicalKey = acc.map canonicalKey := by
  intro acc
  induction acc with
  | nil =>
    intro k a _
    simp [replaceAtKey]
  | cons c rest ih =>
    intro k a ha
    rw [replaceAtKey]
    by_cases hck : canonicalKey c = k
    · rw [if_pos hck]
      by_cases hgt : a.confidence > c.confidence
      · rw [if_pos hgt]
        simp [ha, hck]
      · rw [if_neg hgt]
    · rw [if_neg hck]
      simp [ih k a ha]

theorem replaceAtKey_dominates_old :
    ∀ (acc : List DiscoveredAccount) (k : String) (a : DiscoveredAccount),
      canonicalKey a = k →
      ∀ b ∈ acc, ∃ b2 ∈ replaceAtKey acc k a,
        canonicalKey b2 = canonicalKey b ∧ b.confidence ≤ b2.confidence := by
  intro acc
  induction acc with
  | nil =>
    intro k a _ b hb
    simp at hb
  | cons c rest ih =>
    intro k a ha b hb
    rw [replaceAtKey]
    by_cases hck : canonicalKey c = k
    · rw [if_pos hck]
      rcases List.mem_cons.mp hb with rfl | hb2
      · by_cases hgt : a.confidence > b.confidence
        · rw [if_pos hgt]
          exact ⟨a, List.mem_cons_self _ _, by rw [ha, hck], le_of_lt hgt⟩
        · rw [if_neg hgt]
          exact ⟨b, List.mem_cons_self _ _, rfl, le_refl _⟩
      · refine ⟨b, List.mem_cons_of_mem _ hb2, rfl, le_refl _⟩
    · rw [if_neg hck]
      rcases List.mem_cons.mp hb with rfl | hb2
      · exact ⟨b, List.mem_cons_self _ _, rfl, le_refl _⟩
      · rcases ih k a ha b hb2 with ⟨b2, hb2m, hk2, hle2⟩
        exact ⟨b2, List.mem_cons_of_mem _ hb2m, hk2, hle2⟩

theorem replaceAtKey_dominates_new :
    ∀ (acc : List DiscoveredAccount) (k : String) (a : DiscoveredAccount),
      canonicalKey a = k →
      (∃ b ∈ acc, canonicalKey b = k) →
      ∃ b2 ∈ replaceAtKey acc k a,
        canonicalKey b2 = k ∧ a.confidence ≤ b2.confidence := by
  intro acc
  induction acc with
  | nil =>
    intro k a _ hex
    rcases hex with ⟨b, hb, _⟩
    simp at hb
  | cons c rest ih =>
    intro k a ha hex
    rw [replaceAtKey]
    by_cases hck : canonicalKey c = k
    · rw [if_pos hck]
      by_cases hgt : a.confidence > c.confidence
      · rw [if_pos hgt]
        exact ⟨a, List.mem_cons_self _ _, ha, le_refl _⟩
      · rw [if_neg hgt]
        exact ⟨c, List.mem_cons_self _ _, hck, not_lt.mp hgt⟩
    · rw [if_neg hck]
      rcases hex with ⟨b, hb, hbk⟩
      rcases List.mem_cons.mp hb with rfl | hb2
      · exact absurd hbk hck
      · rcases ih k a ha ⟨b, hb2, hbk⟩ with ⟨b2, hb2m, hk2, hle2⟩
        exact ⟨b2, List.mem_cons_of_mem _ hb2m, hk2, hle2⟩

theorem dedup_fold_inv :
    ∀ (inp acc : List DiscoveredAccount) (seen : List String),
      seen = (acc.map canonicalKey).reverse →
      (acc.map canonicalKey).Nodup →
      (((inp.foldl dedupStep (acc, seen)).1.map canonicalKey).Nodup
       ∧ (∀ b0 ∈ acc, ∃ b ∈ (inp.foldl dedupStep (acc, seen)).1,
            canonicalKey b = canonicalKey b0 ∧ b0.confidence ≤ b.confidence)
       ∧ (∀ d ∈ inp, ∃ b ∈ (inp.foldl dedupStep (acc, seen)).1,
            canonicalKey b = canonicalKey d ∧ d.confidence ≤ b.confidence)) := by
  intro inp
  induction inp with
  | nil =>
    intro acc seen _ hnodup
    refine ⟨hnodup, ?_, ?_⟩
    · intro b0 hb0
      exact ⟨b0, hb0, rfl, le_refl _⟩
    · intro d hd
      simp at hd
  | cons a rest ih =>
    intro acc seen hseen hnodup
    rw [List.foldl_cons]
    by_cases hk : canonicalKey a ∈ seen
    · have hstep : dedupStep (acc, seen) a = (replaceAtKey acc (canonicalKey a) a, seen) := by
        unfold dedupStep
        rw [if_pos hk]
      rw [hstep]
      have hkeys := replaceAtKey_keys acc (canonicalKey a) a rfl
      obtain ⟨hN, hOld, hRest⟩ :=
        ih (replaceAtKey acc (canonicalKey a) a) seen
          (by rw [hkeys]; exact hseen) (by rw [hkeys]; exact hnodup)
      refine ⟨hN, ?_, ?_⟩
      · intro b0 hb0
        rcases replaceAtKey_dominates_old acc (canonicalKey a) a rfl b0 hb0 with
          ⟨b1, hb1, hk1, hle1⟩
        rcases hOld b1 hb1 with ⟨b, hb, hk2, hle2⟩
        exact ⟨b, hb, hk2.trans hk1, le_trans hle1 hle2⟩
      · intro d hd
        rcases List.mem_cons.mp hd with rfl | hd2
        · have hmem : ∃ b ∈ acc, canonicalKey b = canonicalKey d := by
            have hmk : canonicalKey d ∈ acc.map canonicalKey := by
              rw [hseen] at hk
              simpa using hk
            rcases List.mem_map.mp hmk with ⟨b, hb, hkb⟩
            exact ⟨b, hb, hkb⟩
          rcases replaceAtKey_dominates_new acc (canonicalKey d) d rfl hmem with
            ⟨b1, hb1, hk1, hle1⟩
          rcases hOld b1 hb1 with ⟨b, hb, hk2, hle2⟩
          exact ⟨b, hb, hk2.trans hk1, le_trans hle1 hle2⟩
        · exact hRest d hd2
    · have hstep : dedupStep (acc, seen) a = (acc ++ [a], canonicalKey a :: seen) := by
        unfold dedupStep
        rw [if_neg hk]
      rw [hstep]
      have hkeys : (acc ++ [a]).map canonicalKey
          = acc.map canonicalKey ++ [canonicalKey a] := by
        simp
      have hnotmem : canonicalKey a ∉ acc.map canonicalKey := by
        intro hmem
        apply hk
        rw [hseen]
        simpa using hmem
      obtain ⟨hN, hOld, hRest⟩ :=
        ih (acc ++ [a]) (canonicalKey a :: seen)
          (by rw [hkeys, List.reverse_append, hseen]; simp)
          (by
            rw [hkeys]
            refine List.Nodup.append hnodup (List.nodup_singleton _) ?_
            intro x hx hx2
            rcases List.mem_singleton.mp hx2 with rfl
            exact hnotmem hx)
      refine ⟨hN, ?_, ?_⟩
      · intro b0 hb0
        exact hOld b0 (List.mem_append.mpr (Or.inl hb0))
      · intro d hd
        rcases List.mem_cons.mp hd with rfl | hd2
        · exact hOld d (List.mem_append.mpr (Or.inr (List.mem_singleton.mpr rfl)))
        · exact hRest d hd2

/-- Claim C3 (amended): after a single aggregation pass at most one account
is retained per (platform, canonical identifier) key; the retained account
is one of the duplicates and carries the highest confidence among them, and
it keeps its own metadata — the deduplication does **not** union metadata
fields. -/
theorem dedup_unique_highest (accounts : List DiscoveredAccount) :
    ((deduplicateAccounts accounts).map canonicalKey).Nodup
    ∧ (∀ b ∈ deduplicateAccounts accounts, b ∈ accounts)
    ∧ (∀ b ∈ deduplicateAccounts accounts, ∀ d ∈ accounts,
        canonicalKey d = canonicalKey b → d.confidence ≤ b.confidence)
    ∧ (∀ d ∈ accounts, ∃ b ∈ deduplicateAccounts accounts,
        canonicalKey b = canonicalKey d) := by
  have hsubset : ∀ b ∈ deduplicateAccounts accounts, b ∈ accounts :=
    fun b hb => deduplicateAccounts_subset accounts b hb
  obtain ⟨hN, _, hAll⟩ := dedup_fold_inv accounts [] [] (by simp) (by simp)
  have hNd : ((deduplicateAccounts accounts).map canonicalKey).Nodup := hN
  refine ⟨hNd, hsubset, ?_, ?_⟩
  · intro b hb d hd hkey
    rcases hAll d hd with ⟨b2, hb2, hk2, hle⟩
    have hb2d : b2 ∈ deduplicateAccounts accounts := hb2
    have heq : b2 = b :=
      List.inj_on_of_nodup_map hNd hb2d hb (by rw [hk2, hkey])
    rw [heq] at hle
    exact hle
  · intro d hd
    rcases hAll d hd with ⟨b2, hb2, hk2, _⟩
    exact ⟨b2, hb2, hk2⟩

/-- Claim C3, counterexample to the metadata-union clause: two duplicate
accounts for the same (platform, canonical identifier); the lower-confidence
one carries a profile URL, the higher-confidence one carries a follower
count.  The deduplicator keeps the higher-confidence instance as-is, so the
retained metadata lacks the profile URL and differs from the union of the
two metadata records. -/
theorem dedup_metadata_union_counterexample :
    canonicalKey (DiscoveredAccount.mk "P" (some "a@b.c") none "password_reset" 60
        (AccountMetadata.mk (some "https://p.example/u") false none none none none))
      = canonicalKey (DiscoveredAccount.mk "P" (some "a@b.c") none "api_verification" 70
        (AccountMetadata.mk none false none none (some 5) none))
    ∧ deduplicateAccounts
        [DiscoveredAccount.mk "P" (some "a@b.c") none "password_reset" 60
          (AccountMetadata.mk (some "https://p.example/u") false none none none none),
         DiscoveredAccount.mk "P" (some "a@b.c") none "api_verification" 70
          (AccountMetadata.mk none false none none (some 5) none)]
      = [DiscoveredAccount.mk "P" (some "a@b.c") none "api_verification" 70
          (AccountMetadata.mk none false none none (some 5) none)]
    ∧ ¬ ((deduplicateAccounts
        [DiscoveredAccount.mk "P" (some "a@b.c") none "password_reset" 60
          (AccountMetadata.mk (some "https://p.example/u") false none none none none),
         DiscoveredAccount.mk "P" (some "a@b.c") none "api_verification" 70
          (AccountMetadata.mk none false none none (some 5) none)]).map (·.metadata)
      = [unionMetadata
          (AccountMetadata.mk (some "https://p.example/u") false none none none none)
          (AccountMetadata.mk none false none none (some 5) none)]) := by
  refine ⟨rfl, by decide, by decide⟩

end PrivacyGuard
